import Mathlib

/- Formal model of the slowly.py client library (tiagovla/slowly.py):
the Route builder and the retrying request loop of src/slowly/http.py,
the event dispatcher of src/slowly/client.py, the User/Letter record
construction of src/slowly/models/user.py and src/slowly/models/letter.py,
and the letter paginator of src/slowly/models/letter.py, together with
theorems checking the documented behaviour of each piece. -/

namespace Slowly

/-- Errors a modelled Python code path can raise.  `fuelExhausted` is an
artifact of the fuel-bounded loops below and is proved unreachable for the
inputs the theorems use. -/
inductive PyErr where
  | valueError (msg : String)
  | typeError (msg : String)
  | keyError (key : String)
  | attributeError (obj attrName : String)
  | indexError
  | fuelExhausted
deriving DecidableEq, Repr

/-- Lookup in a Python dict modelled as an insertion-ordered association
list (`d[k]` / `d.get(k)` in Option form). -/
def getKey {α : Type} : List (String × α) → String → Option α
  | [], _ => none
  | (k', v) :: rest, k => if k' = k then some v else getKey rest k

/-- Mutation `d[k] = v` on a Python dict modelled as an association list:
replace in place when the key exists, else append at the end. -/
def setKey {α : Type} : List (String × α) → String → α → List (String × α)
  | [], k, v => [(k, v)]
  | (k', v') :: rest, k, v =>
    if k' = k then (k, v) :: rest else (k', v') :: setKey rest k v

/-- Mutation `d.pop(k)` on a dict with unique keys: drop the entry. -/
def popKey {α : Type} : List (String × α) → String → List (String × α)
  | [], _ => []
  | (k', v) :: rest, k => if k' = k then rest else (k', v) :: popKey rest k

/- ---------------------------------------------------------------------
HTTPClient.request (src/slowly/http.py lines 139-153): the response-status
loop, over a simulated session that yields a fixed sequence of responses.
--------------------------------------------------------------------- -/

/-- One simulated HTTP response: its status code and its body as already
decoded by `json_or_text`. -/
structure Resp where
  status : Nat
  body : String
deriving DecidableEq, Repr

/-- How one call to `HTTPClient.request` ends. `runtimeError` is the
`RuntimeError("Unreachable code in HTTP handling")` raised when the
3-attempt loop exhausts; `starved` is a simulation artifact for a session
whose response list ran dry. -/
inductive ReqOutcome where
  | success (body : String)
  | forbidden (body : String)
  | notFound (body : String)
  | httpError (body : String)
  | runtimeError
  | starved
deriving DecidableEq, Repr

/-- Result of one `request` call: the outcome, the seconds slept before
each retry (in order), and the responses the session has left. -/
structure ReqResult where
  outcome : ReqOutcome
  sleeps : List Nat
  rest : List Resp
deriving DecidableEq, Repr

/-- The body of `for tries in range(3)` in `HTTPClient.request`: `budget`
counts the remaining loop iterations and `tries` the 0-based attempt
index.  2xx returns the body; 500/502 sleeps `1 + tries*2` seconds and
retries; 403 raises Forbidden; 404 raises NotFound; any other status
raises HTTPException; an exhausted budget raises RuntimeError. -/
def requestAttempts : Nat → Nat → List Resp → ReqResult
  | 0, _, rs => ⟨.runtimeError, [], rs⟩
  | _ + 1, _, [] => ⟨.starved, [], []⟩
  | budget + 1, tries, r :: rs =>
    if 200 ≤ r.status ∧ r.status < 300 then ⟨.success r.body, [], rs⟩
    else if r.status = 500 ∨ r.status = 502 then
      let cont := requestAttempts budget (tries + 1) rs
      ⟨cont.outcome, (1 + tries * 2) :: cont.sleeps, cont.rest⟩
    else if r.status = 403 then ⟨.forbidden r.body, [], rs⟩
    else if r.status = 404 then ⟨.notFound r.body, [], rs⟩
    else ⟨.httpError r.body, [], rs⟩

/-- One call of `HTTPClient.request`'s status loop on a simulated
session: a fixed budget of exactly 3 attempts. -/
def requestSim (rs : List Resp) : ReqResult := requestAttempts 3 0 rs

/- ---------------------------------------------------------------------
Client.wait_for / Client.dispatch (src/slowly/client.py lines 92-158):
the waiter queue per event name and the dispatch loop, modelled with
integer payloads.
--------------------------------------------------------------------- -/

/-- Result of calling a waiter's check predicate on the payload: Python
either returns a value (tested for truthiness) or raises. -/
inductive PredRes where
  | value (b : Bool)
  | raised (msg : String)

/-- A registered one-shot waiter: `wid` identifies its future, `cancelled`
models `future.cancelled()` at dispatch time, `pred` is the check. -/
structure Waiter where
  wid : Nat
  cancelled : Bool
  pred : List Int → PredRes

/-- What `dispatch` did to a waiter's future: `set_result(None)` for an
empty payload, the single value for one argument, the tuple for more, or
`set_exception` when the predicate raised. -/
inductive FutAction where
  | resolvedNone
  | resolvedOne (v : Int)
  | resolvedTuple (vs : List Int)
  | failed (msg : String)
deriving DecidableEq, Repr

/-- The value `dispatch` resolves a future with, by payload arity. -/
def resolveAct (args : List Int) : FutAction :=
  match args with
  | [] => .resolvedNone
  | [v] => .resolvedOne v
  | vs => .resolvedTuple vs

/-- `del listeners[idx]` on a Python list: out-of-range raises IndexError. -/
def delIdx {α : Type} : List α → Nat → Except PyErr (List α)
  | [], _ => .error .indexError
  | _ :: rest, 0 => .ok rest
  | x :: rest, n + 1 => (delIdx rest n).map (x :: ·)

/-- The `for idx in reversed(removed): del listeners[idx]` block:
`removed` holds indices in the order they were appended (ascending), so
deletion walks them from the last to the first. -/
def applyRemovals (l : List Waiter) (rm : List Nat) : Except PyErr (List Waiter) :=
  rm.reverse.foldlM delIdx l

/-- State of the listener loop inside `Client.dispatch`: the local
`listeners` list object (shared with the dict), the `removed` index list
(never cleared between iterations), whether `self._listeners.pop(event)`
has run, and the future actions performed so far. -/
structure LoopState where
  listeners : List Waiter
  removed : List Nat
  popped : Bool
  acts : List (Nat × FutAction)

/-- The cleanup block that the source nests INSIDE the loop body (lines
147-151 of src/slowly/client.py): when every index is in `removed`, pop
the whole event key (a second pop would raise KeyError); otherwise delete
the removed indices from the shared list, leaving `removed` as is. -/
def cleanupStep (event : String) (st : LoopState) : Except PyErr LoopState :=
  if st.removed.length = st.listeners.length then
    if st.popped then .error (.keyError event)
    else .ok { st with popped := true }
  else
    (applyRemovals st.listeners st.removed).map fun l => { st with listeners := l }

/-- The `for i, (future, condition) in enumerate(listeners)` loop of
`Client.dispatch`: `j` is the enumeration index over the mutating list; a
cancelled future records its index and `continue`s past the cleanup; a
raising predicate fails the future; a true predicate resolves it by
payload arity; the nested cleanup block then runs.  `fuel` bounds the
iterations; `j` strictly increases while the list never grows, so fuel
`listeners.length + 1` is never exhausted. -/
def dispatchLoop (event : String) (args : List Int) :
    Nat → Nat → LoopState → Except PyErr LoopState
  | 0, _, _ => .error .fuelExhausted
  | fuel + 1, j, st =>
    if h : j < st.listeners.length then
      let w := st.listeners.get ⟨j, h⟩
      if w.cancelled then
        dispatchLoop event args fuel (j + 1) { st with removed := st.removed ++ [j] }
      else
        match w.pred args with
        | .raised msg =>
          let st' : LoopState :=
            ⟨st.listeners, st.removed ++ [j], st.popped,
             st.acts ++ [(w.wid, .failed msg)]⟩
          (cleanupStep event st').bind (dispatchLoop event args fuel (j + 1))
        | .value b =>
          if b then
            let st' : LoopState :=
              ⟨st.listeners, st.removed ++ [j], st.popped,
               st.acts ++ [(w.wid, resolveAct args)]⟩
            (cleanupStep event st').bind (dispatchLoop event args fuel (j + 1))
          else
            (cleanupStep event st).bind (dispatchLoop event args fuel (j + 1))
    else .ok st

/-- The client state the dispatcher touches: the `_listeners` dict, the
`_ready` flag, and the names of the `on_<event>` coroutine attributes
present on the instance (none by default; `Client.event` adds them). -/
structure SClient where
  listeners : List (String × List Waiter)
  ready : Bool
  attrs : List String

/-- Result of one `Client.dispatch` call: the updated client, the future
actions in order, and the `on_<event>` method scheduled as a background
task (none logs the missing-handler warning instead). -/
structure DispatchResult where
  client : SClient
  acts : List (Nat × FutAction)
  scheduled : Option String

/-- `Client.dispatch` (src/slowly/client.py lines 112-158): look the event
name up VERBATIM in `_listeners` (only `wait_for` lowercases), run the
waiter loop when the queue is non-empty (an empty list is falsy), write
the surviving local list back unless the key was popped, then schedule
`on_<event>` when such an attribute exists. -/
def dispatchSim (c : SClient) (event : String) (args : List Int) :
    Except PyErr DispatchResult :=
  let method := "on_" ++ event
  let sched := if method ∈ c.attrs then some method else none
  match getKey c.listeners event with
  | none => .ok ⟨c, [], sched⟩
  | some l =>
    if l.isEmpty then .ok ⟨c, [], sched⟩
    else
      (dispatchLoop event args (l.length + 1) 0 ⟨l, [], false, []⟩).map fun st =>
        ⟨{ c with listeners :=
            if st.popped then popKey c.listeners event
            else setKey c.listeners event st.listeners },
         st.acts, sched⟩

/-- `str.lower` for the ASCII event names this API uses (Python's `lower`
also folds non-ASCII letters; nothing here relies on those). -/
def pyLower (s : String) : String :=
  String.mk (s.data.map fun c =>
    if 'A' ≤ c ∧ c ≤ 'Z' then Char.ofNat (c.toNat + 32) else c)

/-- `Client.wait_for` (src/slowly/client.py lines 92-110): register a
one-shot waiter by appending it to the queue under the LOWERCASED event
name, creating the queue when absent. -/
def waitForSim (c : SClient) (event : String) (w : Waiter) : SClient :=
  let ev := pyLower event
  match getKey c.listeners ev with
  | some l => { c with listeners := setKey c.listeners ev (l ++ [w]) }
  | none => { c with listeners := c.listeners ++ [(ev, [w])] }

/-- `Client._handle_ready` (src/slowly/client.py lines 179-182): set the
`_ready` asyncio.Event.  Registered as `_handlers["ready"]`; `dispatch`
itself never calls it. -/
def handleReadySim (c : SClient) : SClient := { c with ready := true }

/-- A check predicate that accepts every payload. -/
def alwaysTrue : List Int → PredRes := fun _ => .value true

/- ---------------------------------------------------------------------
Data models: BaseUser._update (src/slowly/models/user.py lines 71-93) and
BaseLetter._update (src/slowly/models/letter.py lines 44-57), with a model
of datetime.strptime for the two fixed formats the code uses.
--------------------------------------------------------------------- -/

/-- A naive datetime as datetime.strptime builds it (date-only parses get
a midnight time). -/
structure PyDateTime where
  year : Nat
  month : Nat
  day : Nat
  hour : Nat
  minute : Nat
  second : Nat
deriving DecidableEq, Repr

/-- A Python value as it appears in the JSON payloads and on the model
objects: payloads carry strings, ints, bools and null; `_update` adds
parsed datetimes. -/
inductive PyVal where
  | vNone
  | vStr (s : String)
  | vInt (n : Int)
  | vBool (b : Bool)
  | vDate (d : PyDateTime)
deriving DecidableEq, Repr

/-- Python truthiness of the values above (`data.get(attr)` is tested with
`and`): None, "", 0 and False are falsy. -/
def PyVal.truthy : PyVal → Bool
  | .vNone => false
  | .vStr s => s ≠ ""
  | .vInt n => n ≠ 0
  | .vBool b => b
  | .vDate _ => true

/-- `data.get(attr)` on a payload dict: missing keys give None. -/
def pyGet (data : List (String × PyVal)) (attr : String) : PyVal :=
  (getKey data attr).getD .vNone

/-- Value of an ASCII digit character. -/
def digitVal (c : Char) : Option Nat :=
  if '0' ≤ c ∧ c ≤ '9' then some (c.toNat - 48) else none

/-- Two zero-padded digits. -/
def num2 (a b : Char) : Option Nat := do
  pure ((← digitVal a) * 10 + (← digitVal b))

/-- Four zero-padded digits. -/
def num4 (a b c d : Char) : Option Nat := do
  pure ((← num2 a b) * 100 + (← num2 c d))

/-- datetime.strptime with format "%Y-%m-%d %H:%M:%S" on the zero-padded
wire strings this API sends: four year digits, two digits for each other
field, literal separators, and in-range month/day/hour/minute/second
(we check numeric ranges; strptime additionally rejects impossible
calendar dates, which no theorem here relies on). -/
def strptimeDateTime (s : String) : Option PyDateTime :=
  match s.data with
  | [y1, y2, y3, y4, '-', m1, m2, '-', d1, d2, ' ',
     h1, h2, ':', n1, n2, ':', s1, s2] => do
    let y ← num4 y1 y2 y3 y4
    let mo ← num2 m1 m2
    let d ← num2 d1 d2
    let h ← num2 h1 h2
    let mi ← num2 n1 n2
    let se ← num2 s1 s2
    if 1 ≤ mo ∧ mo ≤ 12 ∧ 1 ≤ d ∧ d ≤ 31 ∧ h ≤ 23 ∧ mi ≤ 59 ∧ se ≤ 61 then
      pure ⟨y, mo, d, h, mi, se⟩
    else none
  | _ => none

/-- datetime.strptime with format "%Y-%m-%d" (the `dob` field): the time
components default to midnight. -/
def strptimeDate (s : String) : Option PyDateTime :=
  match s.data with
  | [y1, y2, y3, y4, '-', m1, m2, '-', d1, d2] => do
    let y ← num4 y1 y2 y3 y4
    let mo ← num2 m1 m2
    let d ← num2 d1 d2
    if 1 ≤ mo ∧ mo ≤ 12 ∧ 1 ≤ d ∧ d ≤ 31 then pure ⟨y, mo, d, 0, 0, 0⟩
    else none
  | _ => none

/-- The `attr.startswith("_")` guard of the `_update` loops: true when the
attr name begins with an underscore. -/
def startsWithUnderscore (s : String) : Bool :=
  match s.data with
  | [] => false
  | c :: _ => c = '_'

/-- One step of the `_update` loops: parse `data[attr]` with the given
strptime when the attr is in the date list and its payload value is
truthy, else copy `data.get(attr, None)`.  strptime on a non-string
raises TypeError, on a malformed string ValueError. -/
def updateField (parse : String → Option PyDateTime) (isDate : Bool)
    (data : List (String × PyVal)) (attr : String) : Except PyErr PyVal :=
  if isDate ∧ (pyGet data attr).truthy then
    match pyGet data attr with
    | .vStr s =>
      match parse s with
      | some d => .ok (.vDate d)
      | none => .error (.valueError s)
    | _ => .error (.typeError attr)
  else .ok (pyGet data attr)

/-- The `__slots__` of BaseLetter (src/slowly/models/letter.py lines
11-35), in declaration order. -/
def letterSlots : List String :=
  ["_state", "attachments", "avatar", "body", "created_at", "deliver_at",
   "fav", "gender", "id", "location_code", "name", "post", "read_at",
   "sent_from", "stamp", "status", "style", "type", "updated_at", "user",
   "user_fav", "user_to", "user_to_fav"]

/-- The date-attr list hard-coded in BaseLetter._update (lines 48-53).
Note "delivered_at": it is not a Letter slot, while the actual slot
"deliver_at" is missing from this list. -/
def letterDateAttrs : List String :=
  ["created_at", "updated_at", "delivered_at", "read_at"]

/-- BaseLetter._update: walk the slots in order, skip underscore attrs,
parse the attrs named in `letterDateAttrs` as "%Y-%m-%d %H:%M:%S" when
their payload value is truthy, copy everything else verbatim.  The built
object is the resulting attr-to-value mapping in slot order. -/
def letterUpdate (data : List (String × PyVal)) :
    Except PyErr (List (String × PyVal)) :=
  letterSlots.foldlM
    (fun obj attr =>
      if startsWithUnderscore attr then .ok obj
      else
        (updateField strptimeDateTime (attr ∈ letterDateAttrs) data attr).map
          (setKey obj attr))
    []

/-- The `__slots__` of BaseUser (src/slowly/models/user.py lines 13-51),
in declaration order. -/
def userSlots : List String :=
  ["_state", "dob", "age", "allowaudio", "allowphotos", "audiorequest",
   "avatar", "by_id", "created_at", "customdesc", "deactivated",
   "dob_privacy", "emoji_status", "fav", "gender", "id", "identity",
   "joined", "joined_at", "joined_audio", "joined_photos",
   "latest_comment", "latest_sent_by", "location_code", "name",
   "openletter", "photorequest", "plus", "show_last_login", "status",
   "total", "unread", "updated_at", "user_audio", "user_id", "user_photos",
   "user_status"]

/-- The date-attr list hard-coded in BaseUser._update (lines 80-85). -/
def userDateAttrs : List String :=
  ["created_at", "latest_comment", "updated_at", "joined_at"]

/-- BaseUser._update: like the Letter loop, with the User date attrs
parsed as "%Y-%m-%d %H:%M:%S" and `dob` parsed as "%Y-%m-%d" when
truthy. -/
def userUpdate (data : List (String × PyVal)) :
    Except PyErr (List (String × PyVal)) :=
  userSlots.foldlM
    (fun obj attr =>
      if startsWithUnderscore attr then .ok obj
      else if attr = "dob" then
        (updateField strptimeDate (pyGet data "dob").truthy data attr).map
          (setKey obj attr)
      else
        (updateField strptimeDateTime (attr ∈ userDateAttrs) data attr).map
          (setKey obj attr))
    []

/-- Modelled from the spec: `ConnectionState` (src/slowly/state.py is not
among the sources; only its constructor call and uses are).  Per spec §3
it is a per-client bag holding the live HTTP session reference, the
dispatch function and the handlers map, passed by reference into every
model.  Only its shared identity matters to the claims, so it is an
opaque tag. -/
structure ConnectionState where
  tag : Nat
deriving DecidableEq, Repr

/-- A constructed User record: the shared connection state and the
attr-to-value mapping `_update` built. -/
structure UserRec where
  state : ConnectionState
  obj : List (String × PyVal)
deriving DecidableEq, Repr

/-- `User(state, data=...)`: BaseUser.__init__ stores the state then runs
`_update`. -/
def mkUser (st : ConnectionState) (data : List (String × PyVal)) :
    Except PyErr UserRec :=
  (userUpdate data).map (fun o => ⟨st, o⟩)

/- ---------------------------------------------------------------------
Client.fetch_friends (src/slowly/client.py lines 232-236) against the
HTTPClient surface (src/slowly/http.py).
--------------------------------------------------------------------- -/

/-- The attribute names an HTTPClient instance actually has: the ones
`__init__` assigns (including the name-mangled private ones) and the
methods the class defines (src/slowly/http.py). -/
def hTTPClientAttrNames : List String :=
  ["loop", "connector", "_HTTPClient__session", "token", "proxy",
   "proxy_auth", "_HTTPClient__global_over", "user_agent", "device",
   "request", "login", "close", "recreate", "get_client_profile",
   "get_friends", "fetch_user_letters", "auth_fetch_passcode",
   "auth_fetch_token"]

/-- A successful friends-list response body: its `friends` array of user
payloads. -/
structure FriendsResponse where
  friends : List (List (String × PyVal))
deriving DecidableEq, Repr

/-- `Client.fetch_friends`: evaluate `self.http.fetch_friends` — a Python
attribute lookup on the HTTPClient instance — then await it and build one
User per entry of the response's `friends` array, each bound to the
client's shared connection state.  `resp` is the body the session WOULD
return; the lookup raises AttributeError before any request is issued,
because HTTPClient names its friends method `get_friends`. -/
def clientFetchFriends (conn : ConnectionState) (resp : FriendsResponse) :
    Except PyErr (List UserRec) :=
  if "fetch_friends" ∈ hTTPClientAttrNames then
    resp.friends.mapM (mkUser conn)
  else .error (.attributeError "HTTPClient" "fetch_friends")

/- ---------------------------------------------------------------------
AsyncLetterIterator (src/slowly/models/letter.py lines 68-95): the
cursor-based letter paginator.
--------------------------------------------------------------------- -/

/-- A constructed Letter record: the shared connection state and the
attr-to-value mapping BaseLetter._update built. -/
structure LetterRec where
  state : ConnectionState
  obj : List (String × PyVal)
deriving DecidableEq, Repr

/-- `Letter(state, data=...)`. -/
def mkLetter (st : ConnectionState) (data : List (String × PyVal)) :
    Except PyErr LetterRec :=
  (letterUpdate data).map (fun o => ⟨st, o⟩)

/-- The `comments` object of a letters response: the page's letter
payloads and the `next_page_url` value (a URL string or JSON null). -/
structure CommentsPage where
  data : List (List (String × PyVal))
  next_page_url : Option String
deriving DecidableEq, Repr

/-- The body of `GET friend/{id}/all`: `{"comments": {...}}`. -/
structure LettersResponse where
  comments : CommentsPage
deriving DecidableEq, Repr

/-- Python truthiness of `self.next_page` (None or a string): None and
the empty string are falsy. -/
def optTruthy : Option String → Bool
  | none => false
  | some s => s ≠ ""

/-- The state of an AsyncLetterIterator: the page counter starting at 1,
the in-memory batch of not-yet-yielded letters, and the server's last
next-page indicator (None until the first fetch). -/
structure LetterIter where
  state : ConnectionState
  user_id : Int
  current_page : Nat
  letter_batch : List LetterRec
  next_page : Option String
deriving DecidableEq, Repr

/-- `AsyncLetterIterator(state, user_id)`. -/
def mkLetterIter (st : ConnectionState) (uid : Int) : LetterIter :=
  ⟨st, uid, 1, [], none⟩

/-- The result of one `__anext__` call: the yielded letter (`none` means
StopAsyncIteration), the iterator state afterwards, and the pages fetched
from the HTTP layer during the call (empty when no request was issued). -/
structure AnextResult where
  yielded : Option LetterRec
  it : LetterIter
  fetchedPages : List Nat
deriving DecidableEq, Repr

/-- `AsyncLetterIterator.__anext__`: pop the batch head if the batch is
non-empty; otherwise, when on the first page or holding a truthy
next-page link, fetch the current page (`pages` plays the simulated
`fetch_user_letters`), bump the page counter, store the server's
next-page indicator and refill the batch with one Letter per item; then
pop the head again or raise StopAsyncIteration if still empty. -/
def anextSim (it : LetterIter) (pages : Nat → LettersResponse) :
    Except PyErr AnextResult :=
  match it.letter_batch with
  | l :: rest => .ok ⟨some l, { it with letter_batch := rest }, []⟩
  | [] =>
    if it.current_page = 1 ∨ optTruthy it.next_page then
      let resp := pages it.current_page
      (resp.comments.data.mapM (mkLetter it.state)).map fun batch =>
        let it' : LetterIter :=
          ⟨it.state, it.user_id, it.current_page + 1, batch,
           resp.comments.next_page_url⟩
        match batch with
        | l :: rest =>
          ⟨some l, { it' with letter_batch := rest }, [it.current_page]⟩
        | [] => ⟨none, it', [it.current_page]⟩
    else .ok ⟨none, it, []⟩

/-- Repeated `__anext__` calls: the sequence of (yielded letter, pages
fetched) pairs over `n` calls, with the final iterator state. -/
def iterateAnext (pages : Nat → LettersResponse) :
    Nat → LetterIter → Except PyErr (List (Option LetterRec × List Nat) × LetterIter)
  | 0, it => .ok ([], it)
  | n + 1, it =>
    (anextSim it pages).bind fun r =>
      (iterateAnext pages n r.it).map fun p => ((r.yielded, r.fetchedPages) :: p.1, p.2)

/-- The two-page simulated session of the spec's paginator scenario:
page 1 has two letters and a non-empty next-page link, page 2 has one
letter and a null link. -/
def twoPageSession : Nat → LettersResponse := fun p =>
  if p = 1 then
    ⟨⟨[[("id", .vInt 1)], [("id", .vInt 2)]], some "https://x/friend/7/all?page=2"⟩⟩
  else if p = 2 then ⟨⟨[[("id", .vInt 3)]], none⟩⟩
  else ⟨⟨[], none⟩⟩

/- ---------------------------------------------------------------------
Header and proxy preparation in HTTPClient.request (src/slowly/http.py
lines 118-136), before the session call.
--------------------------------------------------------------------- -/

/-- The HTTPClient configuration the header code reads: `token` (None
until login), `proxy` (a URL or None) and whether a `proxy_auth` object
is configured (aiohttp BasicAuth instances are always truthy). -/
structure HTTPConfig where
  token : Option String
  proxy : Option String
  hasProxyAuth : Bool
deriving DecidableEq, Repr

/-- The `self.user_agent` string: `" ".join` of the three parts in
`HTTPClient.__init__`. -/
def userAgentString : String :=
  "Mozilla/5.0 (Windows NT 10.0; Win64; x64) AppleWebKit/537.36 (KHTML, like Gecko) Chrome/132.0.0.0 Safari/537.36"

/-- The default header dict built when the caller passed none
(src/slowly/http.py lines 121-127). -/
def defaultHeaders : List (String × String) :=
  [("accept", "application/json"), ("content-type", "application/json"),
   ("origin", "https://web.slowly.app"), ("user-agent", userAgentString)]

/-- Which proxy keyword `request` forwards to the session:
`if self.proxy: ... elif self.proxy_auth: ...`. -/
inductive ProxyChoice where
  | noProxy
  | viaProxy (url : String)
  | viaProxyAuth
deriving DecidableEq, Repr

/-- Line 128-129: `if self.token: headers["authorization"] = f"Bearer {token}"`
— a truthiness test, so None and the empty string both skip the header. -/
def applyAuthHeader (token : Option String) (hs : List (String × String)) :
    List (String × String) :=
  match token with
  | some t => if t = "" then hs else setKey hs "authorization" ("Bearer " ++ t)
  | none => hs

/-- Lines 130-131: `if "json" in kwargs: headers["Content-Type"] = ...` —
note the differently-cased key, distinct from the default `content-type`. -/
def applyJsonHeader (hasJsonKwarg : Bool) (hs : List (String × String)) :
    List (String × String) :=
  if hasJsonKwarg then setKey hs "Content-Type" "application/json" else hs

/-- Lines 133-136: `if self.proxy: ... elif self.proxy_auth: ...` — the
proxy URL wins and an empty string is falsy. -/
def chooseProxy (cfg : HTTPConfig) : ProxyChoice :=
  match cfg.proxy with
  | some p =>
    if p = "" then (if cfg.hasProxyAuth then .viaProxyAuth else .noProxy)
    else .viaProxy p
  | none => if cfg.hasProxyAuth then .viaProxyAuth else .noProxy

/-- Lines 120-136 of `HTTPClient.request`: take the caller's headers when
given (`kwargs.get("headers")` is None only when absent), ELSE the
defaults; then the authorization, Content-Type and proxy steps above. -/
def prepareRequest (cfg : HTTPConfig) (callerHeaders : Option (List (String × String)))
    (hasJsonKwarg : Bool) : List (String × String) × ProxyChoice :=
  (applyJsonHeader hasJsonKwarg
    (applyAuthHeader cfg.token (callerHeaders.getD defaultHeaders)),
   chooseProxy cfg)

/- ---------------------------------------------------------------------
Route (src/slowly/http.py lines 30-55): BASE + path, with str.format
substitution of named placeholders whose string values are passed through
urllib.parse.quote first.
--------------------------------------------------------------------- -/

/-- An uppercase hex digit, as urllib.parse.quote emits them. -/
def hexDigit (n : Nat) : Char :=
  if n < 10 then Char.ofNat (48 + n) else Char.ofNat (55 + n)

/-- The UTF-8 bytes of a character (RFC 3629), each in 0..255. -/
def utf8Bytes (c : Char) : List Nat :=
  let n := c.toNat
  if n < 128 then [n]
  else if n < 2048 then [192 + n / 64, 128 + n % 64]
  else if n < 65536 then
    [224 + n / 4096, 128 + n / 64 % 64, 128 + n % 64]
  else
    [240 + n / 262144, 128 + n / 4096 % 64, 128 + n / 64 % 64, 128 + n % 64]

/-- Bytes urllib.parse.quote keeps verbatim under its default `safe='/'`:
ASCII letters, digits, `_`, `.`, `-`, `~` and `/`. -/
def quoteSafe (b : Nat) : Bool :=
  (65 ≤ b && b ≤ 90) || (97 ≤ b && b ≤ 122) || (48 ≤ b && b ≤ 57) ||
  b == 95 || b == 46 || b == 45 || b == 126 || b == 47

/-- One byte under urllib.parse.quote: kept, or percent-encoded in
uppercase hex. -/
def quoteByte (b : Nat) : List Char :=
  if quoteSafe b then [Char.ofNat b]
  else ['%', hexDigit (b / 16), hexDigit (b % 16)]

/-- `urllib.parse.quote(v)` with its default safe set, as Route's dict
comprehension calls it on string-typed parameter values. -/
def pyQuote (s : String) : String :=
  String.mk ((s.data.map (fun c => (utf8Bytes c).map quoteByte)).flatten.flatten)

/-- A parameter value passed to Route: the API passes strings and ints
(str.format renders non-strings with `str`, decimal for ints). -/
inductive PVal where
  | pstr (s : String)
  | pint (n : Int)
deriving DecidableEq, Repr

/-- The dict comprehension in Route.__init__ (lines 48-53): percent-quote
string values, pass any other value through for str.format to stringify. -/
def encodeParam : PVal → String
  | .pstr s => pyQuote s
  | .pint n => toString n

/-- str.format over named placeholders, as a scan of the template's
characters (`acc = none` is literal text, `acc = some cs` is inside a
brace pair accumulating the name).  Doubled braces are literal braces; a
stray brace raises ValueError; an unknown name raises KeyError.  Scope:
the plain `{name}` placeholders these URL templates use (no conversions,
format specs or positional fields). -/
def fmtScan (params : List (String × String)) :
    Option (List Char) → List Char → Except PyErr (List Char)
  | none, [] => .ok []
  | none, '{' :: '{' :: rest => (fmtScan params none rest).map (fun l => '{' :: l)
  | none, '}' :: '}' :: rest => (fmtScan params none rest).map (fun l => '}' :: l)
  | none, '{' :: rest => fmtScan params (some []) rest
  | none, '}' :: _ => .error (.valueError "single close brace in format string")
  | none, c :: rest => (fmtScan params none rest).map (fun l => c :: l)
  | some _, [] => .error (.valueError "expected close brace before end of string")
  | some acc, '}' :: rest =>
    (match getKey params (String.mk acc) with
     | none => .error (.keyError (String.mk acc))
     | some v => (fmtScan params none rest).map (fun l => v.data ++ l))
  | some acc, c :: rest => fmtScan params (some (acc ++ [c])) rest

/-- `url.format(**encoded_params)` on a template string. -/
def pyFormat (tmpl : String) (params : List (String × String)) :
    Except PyErr String :=
  (fmtScan params none tmpl.data).map String.mk

/-- A built Route: method, path template, and the resolved URL (an
Except, since str.format can raise on bad templates or missing names). -/
structure Route where
  method : String
  path : String
  url : Except PyErr String
deriving Repr

/-- The fixed API base `Route.BASE`. -/
def routeBASE : String := "https://api.getslowly.com/"

/-- `Route.__init__`: url = BASE + path; when params are given, str.format
substitutes each placeholder with its quoted/stringified value; with no
params the concatenation is returned untouched. -/
def mkRoute (method path : String) (params : List (String × PVal)) : Route :=
  if params.isEmpty then ⟨method, path, .ok (routeBASE ++ path)⟩
  else
    ⟨method, path,
     pyFormat (routeBASE ++ path) (params.map (fun p => (p.1, encodeParam p.2)))⟩

/-- Character lists free of both braces, where fmtScan is pure copying. -/
def braceFree (l : List Char) : Bool :=
  l.all (fun c => c != '{' && c != '}')

end Slowly

namespace Slowly

theorem requestAttempts_success_shape (budget : Nat) :
    ∀ (tries : Nat) (rs srest : List Resp) (b : String) (sl : List Nat),
      requestAttempts budget tries rs = ⟨.success b, sl, srest⟩ →
      ∃ pre r, rs = pre ++ r :: srest ∧ pre.length < budget ∧
        (∀ p ∈ pre, p.status = 500 ∨ p.status = 502) ∧
        200 ≤ r.status ∧ r.status < 300 ∧ r.body = b ∧
        sl = (List.range pre.length).map (fun i => 1 + (tries + i) * 2) := by
  induction budget with
  | zero =>
    intro tries rs srest b sl h
    simp [requestAttempts] at h
  | succ n ih =>
    intro tries rs srest b sl h
    cases rs with
    | nil => simp [requestAttempts] at h
    | cons r rs' =>
      by_cases h2xx : 200 ≤ r.status ∧ r.status < 300
      · simp only [requestAttempts, if_pos h2xx, ReqResult.mk.injEq] at h
        obtain ⟨ho, hs, hr⟩ := h
        cases ho
        subst hs
        exact ⟨[], r, by simp [hr], Nat.succ_pos n, by simp, h2xx.1, h2xx.2, rfl,
          by simp⟩
      · by_cases hretry : r.status = 500 ∨ r.status = 502
        · cases hmk : requestAttempts n (tries + 1) rs' with
          | mk o' sl' rest' =>
            simp only [requestAttempts, if_neg h2xx, if_pos hretry, hmk,
              ReqResult.mk.injEq] at h
            obtain ⟨ho, hs, hr⟩ := h
            subst ho
            obtain ⟨pre, rr, hrs, hlen, hpre, hlo, hhi, hb, hsl⟩ :=
              ih (tries + 1) rs' rest' b sl' hmk
            refine ⟨r :: pre, rr, by simp [hrs, hr],
              by simp only [List.length_cons]; omega, ?_, hlo, hhi, hb, ?_⟩
            · intro p hp
              rcases List.mem_cons.mp hp with hp | hp
              · subst hp; exact hretry
              · exact hpre p hp
            · subst hs
              rw [hsl]
              simp only [List.length_cons, List.range_succ_eq_map,
                List.map_cons, List.map_map]
              congr 1
              apply List.map_congr_left
              intro i _
              simp only [Function.comp_apply]
              omega
        · simp only [requestAttempts, if_neg h2xx, if_neg hretry] at h
          by_cases h403 : r.status = 403
          · simp [if_pos h403] at h
          · by_cases h404 : r.status = 404
            · simp [if_neg h403, if_pos h404] at h
            · simp [if_neg h403, if_neg h404] at h

/-- C1: `request`'s response policy over a simulated session.  A leading
2xx returns that body at once; 403 raises Forbidden immediately, 404
NotFound, and any other non-2xx outside {500, 502} a generic
HTTPException, each consuming one response with no sleep; 500/502 sleeps
`1 + attempt_index*2` seconds and retries within a fixed budget of
exactly 3 attempts (three retryable responses exhaust the loop); every
success returns the body of the first 2xx response with only 500/502
responses consumed before it and sleeps 1, 3, 5; and the session
403/404/500/200 produces, over successive calls, Forbidden, NotFound,
then one retry on the 500 followed by the 200 body. -/
theorem request_retry_policy :
    (∀ (r : Resp) (rs : List Resp), 200 ≤ r.status → r.status < 300 →
      requestSim (r :: rs) = ⟨.success r.body, [], rs⟩) ∧
    (∀ (r : Resp) (rs : List Resp), r.status = 403 →
      requestSim (r :: rs) = ⟨.forbidden r.body, [], rs⟩) ∧
    (∀ (r : Resp) (rs : List Resp), r.status = 404 →
      requestSim (r :: rs) = ⟨.notFound r.body, [], rs⟩) ∧
    (∀ (r : Resp) (rs : List Resp), ¬(200 ≤ r.status ∧ r.status < 300) →
      r.status ≠ 403 → r.status ≠ 404 → r.status ≠ 500 → r.status ≠ 502 →
      requestSim (r :: rs) = ⟨.httpError r.body, [], rs⟩) ∧
    (∀ (r : Resp) (rs : List Resp), r.status = 500 ∨ r.status = 502 →
      requestSim (r :: rs) =
        ⟨(requestAttempts 2 1 rs).outcome, 1 :: (requestAttempts 2 1 rs).sleeps,
         (requestAttempts 2 1 rs).rest⟩) ∧
    (∀ (r₁ r₂ r₃ : Resp) (rs : List Resp),
      r₁.status = 500 ∨ r₁.status = 502 → r₂.status = 500 ∨ r₂.status = 502 →
      r₃.status = 500 ∨ r₃.status = 502 →
      requestSim (r₁ :: r₂ :: r₃ :: rs) = ⟨.runtimeError, [1, 3, 5], rs⟩) ∧
    (∀ (rs srest : List Resp) (b : String) (sl : List Nat),
      requestSim rs = ⟨.success b, sl, srest⟩ →
      ∃ pre r, rs = pre ++ r :: srest ∧ pre.length ≤ 2 ∧
        (∀ p ∈ pre, p.status = 500 ∨ p.status = 502) ∧
        200 ≤ r.status ∧ r.status < 300 ∧ r.body = b ∧
        sl = (List.range pre.length).map (fun i => 1 + i * 2)) ∧
    (requestSim [⟨403, "f"⟩, ⟨404, "n"⟩, ⟨500, "e"⟩, ⟨200, "ok"⟩] =
        ⟨.forbidden "f", [], [⟨404, "n"⟩, ⟨500, "e"⟩, ⟨200, "ok"⟩]⟩ ∧
      requestSim [⟨404, "n"⟩, ⟨500, "e"⟩, ⟨200, "ok"⟩] =
        ⟨.notFound "n", [], [⟨500, "e"⟩, ⟨200, "ok"⟩]⟩ ∧
      requestSim [⟨500, "e"⟩, ⟨200, "ok"⟩] = ⟨.success "ok", [1], []⟩) := by
  refine ⟨?_, ?_, ?_, ?_, ?_, ?_, ?_, rfl, rfl, rfl⟩
  · intro r rs h1 h2
    simp [requestSim, requestAttempts, if_pos (And.intro h1 h2)]
  · intro r rs h
    have h2 : ¬(200 ≤ r.status ∧ r.status < 300) := by omega
    have h5 : ¬(r.status = 500 ∨ r.status = 502) := by omega
    simp [requestSim, requestAttempts, if_neg h2, if_neg h5, if_pos h]
  · intro r rs h
    have h2 : ¬(200 ≤ r.status ∧ r.status < 300) := by omega
    have h5 : ¬(r.status = 500 ∨ r.status = 502) := by omega
    have h3 : r.status ≠ 403 := by omega
    simp [requestSim, requestAttempts, if_neg h2, if_neg h5, if_neg h3, if_pos h]
  · intro r rs h2 h3 h4 h5a h5b
    have h5 : ¬(r.status = 500 ∨ r.status = 502) := by
      intro hc; rcases hc with hc | hc <;> omega
    simp [requestSim, requestAttempts, if_neg h2, if_neg h5, if_neg h3, if_neg h4]
  · intro r rs h
    have h2 : ¬(200 ≤ r.status ∧ r.status < 300) := by
      rcases h with h | h <;> omega
    simp [requestSim, requestAttempts, if_neg h2, if_pos h]
  · intro r₁ r₂ r₃ rs h1 h2 h3
    have n1 : ¬(200 ≤ r₁.status ∧ r₁.status < 300) := by rcases h1 with h | h <;> omega
    have n2 : ¬(200 ≤ r₂.status ∧ r₂.status < 300) := by rcases h2 with h | h <;> omega
    have n3 : ¬(200 ≤ r₃.status ∧ r₃.status < 300) := by rcases h3 with h | h <;> omega
    simp [requestSim, requestAttempts, if_neg n1, if_pos h1, if_neg n2, if_pos h2,
      if_neg n3, if_pos h3]
  · intro rs srest b sl h
    obtain ⟨pre, r, hrs, hlen, hpre, hlo, hhi, hb, hsl⟩ :=
      requestAttempts_success_shape 3 0 rs srest b sl h
    refine ⟨pre, r, hrs, by omega, hpre, hlo, hhi, hb, ?_⟩
    rw [hsl]
    apply List.map_congr_left
    intro i _
    omega

/-- Witness for C1 at a concrete input: a lone 403 response raises
Forbidden at once, consuming a single attempt. -/
theorem request_retry_policy_witness :
    requestSim [⟨403, "x"⟩] = ⟨.forbidden "x", [], []⟩ :=
  request_retry_policy.2.1 ⟨403, "x"⟩ [] rfl

/-- C2, the code evaluated at the failing inputs: with two pending waiters
on "x" whose predicates both return True, `dispatch("x", 5)` resolves only
the first waiter and leaves the second registered and unexamined — the
cleanup block nested inside the loop body deletes the first waiter
mid-iteration, so enumeration steps past the second; and a lone
already-cancelled waiter is not dropped: it stays registered after the
dispatch, because `continue` skips the nested cleanup. -/
theorem dispatch_waiter_loop_bug :
    (dispatchSim ⟨[("x", [⟨0, false, alwaysTrue⟩, ⟨1, false, alwaysTrue⟩])],
        false, []⟩ "x" [5]).map
      (fun d => (d.acts, (getKey d.client.listeners "x").map (List.map Waiter.wid)))
      = .ok ([(0, .resolvedOne 5)], some [1]) ∧
    (dispatchSim ⟨[("x", [⟨0, true, alwaysTrue⟩])], false, []⟩ "x" []).map
      (fun d => (d.acts, (getKey d.client.listeners "x").map (List.map Waiter.wid)))
      = .ok ([], some [0]) := ⟨rfl, rfl⟩

/-- C4, counterexample: on a fresh client (no `on_ready` attribute, no
listeners), a single `dispatch("ready")` leaves the readiness flag unset —
`dispatch` only looks for an `on_<event>` method and never consults the
`_handlers` map that holds `_handle_ready`. -/
theorem dispatch_ready_does_not_set_flag :
    (dispatchSim ⟨[], false, []⟩ "ready" []).map
      (fun d => (d.client.ready, d.acts, d.scheduled)) = .ok (false, [], none) :=
  rfl

/-- C4, amended: the readiness flag is set by the internal handler
`_handle_ready` (registered under "ready" in the handlers map), which is
idempotent; `dispatch` never changes the flag, and neither does waiter
registration, so the flag once set is never cleared and
`wait_until_ready` resolves exactly when the handler has run, whether a
caller waits before or after. -/
theorem ready_flag_via_handler :
    (∀ c : SClient, (handleReadySim c).ready = true) ∧
    (∀ c : SClient, handleReadySim (handleReadySim c) = handleReadySim c) ∧
    (∀ (c : SClient) (e : String) (args : List Int) (d : DispatchResult),
      dispatchSim c e args = .ok d → d.client.ready = c.ready) ∧
    (∀ (c : SClient) (e : String) (w : Waiter),
      (waitForSim c e w).ready = c.ready) := by
  refine ⟨fun c => rfl, fun c => rfl, ?_, ?_⟩
  · intro c e args d h
    unfold dispatchSim at h
    cases hg : getKey c.listeners e with
    | none =>
      simp only [hg, Except.ok.injEq] at h
      rw [← h]
    | some l =>
      simp only [hg] at h
      by_cases he : l.isEmpty = true
      · rw [if_pos he] at h
        injection h with h
        rw [← h]
      · rw [if_neg he] at h
        cases hdl : dispatchLoop e args (l.length + 1) 0 ⟨l, [], false, []⟩ with
        | error err => rw [hdl] at h; simp [Except.map] at h
        | ok st =>
          rw [hdl] at h
          simp only [Except.map, Except.ok.injEq] at h
          rw [← h]
  · intro c e w
    unfold waitForSim
    cases h : getKey c.listeners (pyLower e) <;> simp [h]

/-- Witness for C4's amended claim: the dispatch conjunct applied to the
fresh client, discharging its hypothesis by computation. -/
theorem ready_flag_via_handler_witness :
    (⟨⟨[], false, []⟩, [], none⟩ : DispatchResult).client.ready
      = (⟨[], false, []⟩ : SClient).ready :=
  ready_flag_via_handler.2.2.1 ⟨[], false, []⟩ "ready" [] ⟨⟨[], false, []⟩, [], none⟩ rfl

/-- C6, counterexample: a waiter registered with `wait_for("x")` (an
always-true check) is NOT resolved by `dispatch("X", 7)` — a name equal up
to case — because `wait_for` lowercases the registration key while
`dispatch` looks its argument up verbatim; the same dispatch under the
lowercase name does resolve it. -/
theorem dispatch_event_case_mismatch :
    (dispatchSim (waitForSim ⟨[], false, []⟩ "x" ⟨0, false, alwaysTrue⟩) "X" [7]).map
      (fun d => (d.acts, (getKey d.client.listeners "x").map (List.map Waiter.wid)))
      = .ok ([], some [0]) ∧
    (dispatchSim (waitForSim ⟨[], false, []⟩ "x" ⟨0, false, alwaysTrue⟩) "x" [7]).map
      (fun d => (d.acts, (getKey d.client.listeners "x").map (List.map Waiter.wid)))
      = .ok ([(0, .resolvedOne 7)], none) := ⟨rfl, rfl⟩

/-- C6, amended: `wait_for` registers under the lowercased event name, so
registrations differing only in case share one queue, while `dispatch`
matches the dispatched name verbatim: a waiter registered with
`wait_for(e)` and an accepting predicate is resolved by `dispatch(e', v)`
exactly when `e'` equals the lowercase of `e`, and is left registered and
untouched otherwise — including when `e'` differs from it only by case. -/
theorem wait_for_dispatch_case_rule (e e' : String) (v : Int) :
    (dispatchSim (waitForSim ⟨[], false, []⟩ e ⟨0, false, alwaysTrue⟩) e' [v]).map
      (fun d => (d.acts,
        (getKey d.client.listeners (pyLower e)).map (List.map Waiter.wid)))
      = .ok (if e' = pyLower e then [(0, .resolvedOne v)] else [],
             if e' = pyLower e then none else some [0]) := by
  have hreg : waitForSim ⟨[], false, []⟩ e ⟨0, false, alwaysTrue⟩ =
      ⟨[(pyLower e, [⟨0, false, alwaysTrue⟩])], false, []⟩ := rfl
  rw [hreg]
  by_cases h : e' = pyLower e
  · subst h
    generalize pyLower e = k
    simp [dispatchSim, getKey, dispatchLoop, cleanupStep, applyRemovals, delIdx,
      resolveAct, alwaysTrue, popKey, Except.map, Except.bind]
  · simp only [dispatchSim, getKey]
    rw [if_neg (fun hc => h hc.symm)]
    simp [getKey, h, Except.map]

/-- C7, the code evaluated at the failing input: a letter payload carrying
a well-formed timestamp under "deliver_at" leaves that field as the RAW
string — the date list in BaseLetter._update names "delivered_at", which
is not a Letter slot, so the real slot "deliver_at" falls through to the
verbatim copy — while the sibling fields created_at, updated_at and
read_at are parsed to datetimes under their own keys, and a missing field
defaults to None rather than raising. -/
theorem letter_deliver_at_not_parsed :
    (letterUpdate [("deliver_at", .vStr "2024-01-02 03:04:05")]).map
      (fun o => getKey o "deliver_at")
      = .ok (some (.vStr "2024-01-02 03:04:05")) ∧
    (letterUpdate [("created_at", .vStr "2024-01-02 03:04:05")]).map
      (fun o => getKey o "created_at")
      = .ok (some (.vDate ⟨2024, 1, 2, 3, 4, 5⟩)) ∧
    (letterUpdate [("updated_at", .vStr "2020-12-31 23:59:59"),
                   ("read_at", .vStr "2021-06-07 08:09:10")]).map
      (fun o => (getKey o "updated_at", getKey o "read_at"))
      = .ok (some (.vDate ⟨2020, 12, 31, 23, 59, 59⟩),
             some (.vDate ⟨2021, 6, 7, 8, 9, 10⟩)) ∧
    (letterUpdate []).map (fun o => getKey o "deliver_at") = .ok (some .vNone) ∧
    letterDateAttrs.contains "deliver_at" = false ∧
    letterSlots.contains "delivered_at" = false :=
  ⟨rfl, rfl, rfl, rfl, rfl, rfl⟩

/-- C3, the code evaluated: `Client.fetch_friends` raises AttributeError
for EVERY response, because it calls `self.http.fetch_friends()` while
HTTPClient defines the friends request as `get_friends` — which does
exist on the instance under its own name. -/
theorem fetch_friends_attribute_error :
    (∀ (conn : ConnectionState) (resp : FriendsResponse),
      clientFetchFriends conn resp
        = .error (.attributeError "HTTPClient" "fetch_friends")) ∧
    "get_friends" ∈ hTTPClientAttrNames :=
  ⟨fun conn resp => rfl, by decide⟩

/-- Helper: a cursor with an empty batch, past the first page and with a
falsy next-page indicator neither fetches nor changes state — `__anext__`
just raises StopAsyncIteration. -/
theorem anext_exhausted (it : LetterIter) (pages : Nat → LettersResponse)
    (hb : it.letter_batch = []) (hp : it.current_page ≠ 1)
    (hn : optTruthy it.next_page = false) :
    anextSim it pages = .ok ⟨none, it, []⟩ := by
  obtain ⟨st, uid, cp, batch, np⟩ := it
  simp only at hb hp hn
  subst hb
  simp [anextSim, hp, hn]

/-- C5: over the spec's two-page session, four `__anext__` calls yield the
two letters of page 1 in order (one fetch of page 1), then page 2's
letter (one fetch of page 2), then StopAsyncIteration with no further
fetch; and in general an `__anext__` on an empty batch that fetches an
empty page stores the new cursor and stops, while an empty batch with no
first page or next link left stops without fetching — termination, not an
error, in both cases. -/
theorem letter_paginator_two_pages :
    (iterateAnext twoPageSession 4 (mkLetterIter ⟨0⟩ 7)).map
      (fun p => (p.1.map (fun q => (q.1.map (fun l => getKey l.obj "id"), q.2)),
                 p.2.letter_batch))
      = .ok ([(some (some (.vInt 1)), [1]), (some (some (.vInt 2)), []),
              (some (some (.vInt 3)), [2]), (none, [])], []) ∧
    (∀ (it : LetterIter) (pages : Nat → LettersResponse),
      it.letter_batch = [] →
      it.current_page = 1 ∨ optTruthy it.next_page = true →
      (pages it.current_page).comments.data = [] →
      anextSim it pages =
        .ok ⟨none,
             ⟨it.state, it.user_id, it.current_page + 1, [],
              (pages it.current_page).comments.next_page_url⟩,
             [it.current_page]⟩) ∧
    (∀ (it : LetterIter) (pages : Nat → LettersResponse),
      it.letter_batch = [] → it.current_page ≠ 1 →
      optTruthy it.next_page = false →
      anextSim it pages = .ok ⟨none, it, []⟩) := by
  refine ⟨rfl, ?_, fun it pages hb hp hn => anext_exhausted it pages hb hp hn⟩
  intro it pages hb hcond hdata
  obtain ⟨st, uid, cp, batch, np⟩ := it
  simp only at hb hcond hdata ⊢
  subst hb
  simp [anextSim, hcond, hdata, Except.map, List.mapM, List.mapM.loop, pure,
    Except.pure]

/-- Witness for C5: the no-fetch termination conjunct at a concrete
exhausted cursor. -/
theorem letter_paginator_two_pages_witness :
    anextSim ⟨⟨0⟩, 7, 3, [], none⟩ (fun _ => ⟨⟨[], none⟩⟩)
      = .ok ⟨none, ⟨⟨0⟩, 7, 3, [], none⟩, []⟩ :=
  letter_paginator_two_pages.2.2 ⟨⟨0⟩, 7, 3, [], none⟩ (fun _ => ⟨⟨[], none⟩⟩)
    rfl (by decide) rfl

/-- C10: exhaustion is a stable terminal state — from a cursor with an
empty batch, past the first page and with no next-page indicator (the
state in which `__anext__` raises StopAsyncIteration), every number of
further `__anext__` calls yields only StopAsyncIteration, never issues an
HTTP fetch, and leaves the cursor unchanged. -/
theorem paginator_exhaustion_terminal (it : LetterIter)
    (pages : Nat → LettersResponse) (hb : it.letter_batch = [])
    (hp : it.current_page ≠ 1) (hn : optTruthy it.next_page = false)
    (n : Nat) :
    iterateAnext pages n it = .ok (List.replicate n (none, []), it) := by
  induction n with
  | zero => rfl
  | succ m ih =>
    simp [iterateAnext, anext_exhausted it pages hb hp hn, ih, Except.bind,
      Except.map, List.replicate_succ]

/-- Witness for C10: two further calls on a concrete exhausted cursor
both stop, fetch nothing and preserve the state. -/
theorem paginator_exhaustion_terminal_witness :
    iterateAnext (fun _ => ⟨⟨[], none⟩⟩) 2 ⟨⟨0⟩, 7, 3, [], none⟩
      = .ok ([(none, []), (none, [])], ⟨⟨0⟩, 7, 3, [], none⟩) :=
  paginator_exhaustion_terminal ⟨⟨0⟩, 7, 3, [], none⟩ (fun _ => ⟨⟨[], none⟩⟩)
    rfl (by decide) rfl 2

/-- Helper: writing a key makes it readable. -/
theorem getKey_setKey_same {α : Type} (d : List (String × α)) (k : String) (v : α) :
    getKey (setKey d k v) k = some v := by
  induction d with
  | nil => simp [setKey, getKey]
  | cons p rest ih =>
    obtain ⟨k0, v0⟩ := p
    by_cases h : k0 = k
    · simp [setKey, getKey, h]
    · simp [setKey, getKey, h, ih]

/-- Helper: writing one key leaves every other key unchanged. -/
theorem getKey_setKey_ne {α : Type} (d : List (String × α)) (k k' : String)
    (v : α) (h : k' ≠ k) : getKey (setKey d k v) k' = getKey d k' := by
  induction d with
  | nil => simp [setKey, getKey, Ne.symm h]
  | cons p rest ih =>
    obtain ⟨k0, v0⟩ := p
    by_cases h0 : k0 = k
    · subst h0
      simp [setKey, getKey, Ne.symm h]
    · simp [setKey, getKey, h0, ih]

/-- Helper: the authorization step touches only the "authorization" key. -/
theorem getKey_applyAuthHeader_ne (token : Option String)
    (hs : List (String × String)) (k : String) (h : k ≠ "authorization") :
    getKey (applyAuthHeader token hs) k = getKey hs k := by
  cases token with
  | none => rfl
  | some t =>
    by_cases ht : t = ""
    · simp [applyAuthHeader, ht]
    · simp [applyAuthHeader, ht, getKey_setKey_ne hs "authorization" k _ h]

/-- Helper: the json step touches only the "Content-Type" key. -/
theorem getKey_applyJsonHeader_ne (hasJson : Bool)
    (hs : List (String × String)) (k : String) (h : k ≠ "Content-Type") :
    getKey (applyJsonHeader hasJson hs) k = getKey hs k := by
  cases hasJson with
  | false => rfl
  | true => simp [applyJsonHeader, getKey_setKey_ne hs "Content-Type" k _ h]

/-- C8, counterexample: caller-supplied headers REPLACE the defaults
rather than being merged with them — with headers `{"x-custom": "1"}` the
outgoing dict is exactly that, with none of accept/content-type/origin/
user-agent present; and a set-but-empty token (`token = ""` is set yet
falsy) attaches no authorization header, against the claimed "if and only
if a token is set". -/
theorem caller_headers_replace_defaults :
    (prepareRequest ⟨none, none, false⟩ (some [("x-custom", "1")]) false).1
      = [("x-custom", "1")] ∧
    getKey (prepareRequest ⟨none, none, false⟩ (some [("x-custom", "1")]) false).1
      "accept" = none ∧
    getKey (prepareRequest ⟨none, none, false⟩ (some [("x-custom", "1")]) false).1
      "content-type" = none ∧
    getKey (prepareRequest ⟨none, none, false⟩ (some [("x-custom", "1")]) false).1
      "origin" = none ∧
    getKey (prepareRequest ⟨none, none, false⟩ (some [("x-custom", "1")]) false).1
      "user-agent" = none ∧
    getKey (prepareRequest ⟨some "", none, false⟩ none false).1 "authorization"
      = none := ⟨rfl, rfl, rfl, rfl, rfl, rfl⟩

/-- C8, amended: before sending, `request` uses the caller-supplied
headers verbatim when provided and the default headers (accept,
content-type, origin, fixed user-agent) only when none are provided; it
attaches `authorization: Bearer <token>` exactly when a non-empty token
is set and otherwise leaves that key as the caller had it; it forces
`Content-Type: application/json` when a json body kwarg is present; and
it forwards the proxy URL when one is configured non-empty, else the
proxy auth when configured, else neither. -/
theorem prepare_request_headers (cfg : HTTPConfig)
    (ch : Option (List (String × String))) (hasJson : Bool) :
    (ch = none →
      getKey (prepareRequest cfg ch hasJson).1 "accept" = some "application/json" ∧
      getKey (prepareRequest cfg ch hasJson).1 "content-type" = some "application/json" ∧
      getKey (prepareRequest cfg ch hasJson).1 "origin" = some "https://web.slowly.app" ∧
      getKey (prepareRequest cfg ch hasJson).1 "user-agent" = some userAgentString) ∧
    (∀ (h : List (String × String)) (k : String), ch = some h →
      k ≠ "authorization" → k ≠ "Content-Type" →
      getKey (prepareRequest cfg ch hasJson).1 k = getKey h k) ∧
    (∀ t : String, cfg.token = some t → t ≠ "" →
      getKey (prepareRequest cfg ch hasJson).1 "authorization"
        = some ("Bearer " ++ t)) ∧
    (∀ h : List (String × String), cfg.token = none → ch = some h →
      getKey (prepareRequest cfg ch hasJson).1 "authorization"
        = getKey h "authorization") ∧
    (hasJson = true →
      getKey (prepareRequest cfg ch hasJson).1 "Content-Type"
        = some "application/json") ∧
    (∀ p : String, cfg.proxy = some p → p ≠ "" →
      (prepareRequest cfg ch hasJson).2 = .viaProxy p) ∧
    (cfg.proxy = none → cfg.hasProxyAuth = true →
      (prepareRequest cfg ch hasJson).2 = .viaProxyAuth) ∧
    (cfg.proxy = none → cfg.hasProxyAuth = false →
      (prepareRequest cfg ch hasJson).2 = .noProxy) := by
  refine ⟨?_, ?_, ?_, ?_, ?_, ?_, ?_, ?_⟩
  · intro hch
    subst hch
    refine ⟨?_, ?_, ?_, ?_⟩ <;>
      · rw [show (prepareRequest cfg none hasJson).1
            = applyJsonHeader hasJson (applyAuthHeader cfg.token defaultHeaders)
            from rfl,
          getKey_applyJsonHeader_ne _ _ _ (by decide),
          getKey_applyAuthHeader_ne _ _ _ (by decide)]
        rfl
  · intro h k hch h1 h2
    subst hch
    rw [show (prepareRequest cfg (some h) hasJson).1
          = applyJsonHeader hasJson (applyAuthHeader cfg.token h) from rfl,
      getKey_applyJsonHeader_ne _ _ _ h2, getKey_applyAuthHeader_ne _ _ _ h1]
  · intro t ht hne
    rw [show (prepareRequest cfg ch hasJson).1
          = applyJsonHeader hasJson
              (applyAuthHeader cfg.token (ch.getD defaultHeaders)) from rfl,
      getKey_applyJsonHeader_ne _ _ _ (by decide), ht]
    simp [applyAuthHeader, hne, getKey_setKey_same]
  · intro h ht hch
    subst hch
    rw [show (prepareRequest cfg (some h) hasJson).1
          = applyJsonHeader hasJson (applyAuthHeader cfg.token h) from rfl,
      getKey_applyJsonHeader_ne _ _ _ (by decide), ht]
    rfl
  · intro hj
    subst hj
    rw [show (prepareRequest cfg ch true).1
          = applyJsonHeader true
              (applyAuthHeader cfg.token (ch.getD defaultHeaders)) from rfl]
    simp [applyJsonHeader, getKey_setKey_same]
  · intro p hp hne
    rw [show (prepareRequest cfg ch hasJson).2 = chooseProxy cfg from rfl]
    simp [chooseProxy, hp, hne]
  · intro hp ha
    rw [show (prepareRequest cfg ch hasJson).2 = chooseProxy cfg from rfl]
    simp [chooseProxy, hp, ha]
  · intro hp ha
    rw [show (prepareRequest cfg ch hasJson).2 = chooseProxy cfg from rfl]
    simp [chooseProxy, hp, ha]

/-- Witness for C8's amended claim: the authorization conjunct applied at
a concrete non-empty token with default headers. -/
theorem prepare_request_headers_witness :
    getKey (prepareRequest ⟨some "tok", none, false⟩ none false).1 "authorization"
      = some ("Bearer " ++ "tok") :=
  (prepare_request_headers ⟨some "tok", none, false⟩ none false).2.2.1 "tok" rfl
    (by decide)

/-- Helper: Except.map composes. -/
theorem except_map_map {ε α β γ : Type} (f : α → β) (g : β → γ) (x : Except ε α) :
    Except.map g (Except.map f x) = Except.map (fun a => g (f a)) x := by
  cases x <;> rfl

/-- Helper: a plain-text character is copied. -/
theorem fmtScan_text_step (params : List (String × String)) (c : Char)
    (rest : List Char) (h1 : c ≠ '{') (h2 : c ≠ '}') :
    fmtScan params none (c :: rest)
      = (fmtScan params none rest).map (fun l => c :: l) := by
  rw [fmtScan.eq_def]
  split <;> simp_all

/-- Helper: inside a brace pair a non-closing character joins the name. -/
theorem fmtScan_acc_step (params : List (String × String)) (acc : List Char)
    (c : Char) (rest : List Char) (h2 : c ≠ '}') :
    fmtScan params (some acc) (c :: rest)
      = fmtScan params (some (acc ++ [c])) rest := by
  rw [fmtScan.eq_def]
  split <;> simp_all

/-- Helper: an opening brace not followed by a second one enters name
mode. -/
theorem fmtScan_open_step (params : List (String × String)) (c : Char)
    (rest : List Char) (h1 : c ≠ '{') :
    fmtScan params none ('{' :: c :: rest)
      = fmtScan params (some []) (c :: rest) := by
  rw [fmtScan.eq_def]
  split <;> simp_all [eq_comm]

/-- Helper: fmtScan copies a brace-free prefix verbatim. -/
theorem fmtScan_copy (params : List (String × String)) (a : List Char) :
    ∀ rest : List Char, braceFree a = true →
    fmtScan params none (a ++ rest)
      = (fmtScan params none rest).map (fun l => a ++ l) := by
  induction a with
  | nil =>
    intro rest _
    rw [List.nil_append]
    cases h : fmtScan params none rest <;> simp [h, Except.map]
  | cons c a' ih =>
    intro rest h
    simp only [braceFree, List.all_cons, Bool.and_eq_true, bne_iff_ne, ne_eq] at h
    obtain ⟨⟨h1, h2⟩, h3⟩ := h
    rw [List.cons_append, fmtScan_text_step params c _ h1 h2,
      ih rest (by simpa [braceFree] using h3), except_map_map]
    cases hr : fmtScan params none rest <;> simp [hr, Except.map]

/-- Helper: inside a brace pair, fmtScan accumulates the name up to the
closing brace and substitutes its value. -/
theorem fmtScan_name (params : List (String × String)) (nm : List Char) :
    ∀ (acc rest : List Char), braceFree nm = true →
    fmtScan params (some acc) (nm ++ '}' :: rest)
      = (match getKey params (String.mk (acc ++ nm)) with
         | none => Except.error (.keyError (String.mk (acc ++ nm)))
         | some v => (fmtScan params none rest).map (fun l => v.data ++ l)) := by
  induction nm with
  | nil =>
    intro acc rest _
    simp [fmtScan]
  | cons c nm' ih =>
    intro acc rest h
    simp only [braceFree, List.all_cons, Bool.and_eq_true, bne_iff_ne, ne_eq] at h
    obtain ⟨⟨h1, h2⟩, h3⟩ := h
    rw [List.cons_append, fmtScan_acc_step params acc c _ h2,
      ih (acc ++ [c]) rest (by simpa [braceFree] using h3)]
    simp [List.append_assoc]

/-- Helper: the encoding comprehension keeps keys and maps values. -/
theorem getKey_map_encode (params : List (String × PVal)) (k : String) :
    getKey (params.map (fun p => (p.1, encodeParam p.2))) k
      = (getKey params k).map encodeParam := by
  induction params with
  | nil => rfl
  | cons p rest ih =>
    obtain ⟨k0, v0⟩ := p
    by_cases h : k0 = k <;> simp [getKey, h, ih]

/-- C9: Route URL resolution.  With no parameters the URL is the base
joined with the raw path; with parameters, a template `a{k}b` (brace-free
`a`, `k`, `b`) resolves to base ++ a ++ encoded-value ++ b where the
encoding percent-quotes string-typed values and renders any other value
verbatim via `str` (decimal for ints), and a string of safe bytes passes
through the quoting unchanged.  (Immutability holds trivially here: the
embedding builds `url` once and `Route` has no mutating operation.) -/
theorem route_url_resolution :
    (∀ m p : String, mkRoute m p [] = ⟨m, p, .ok (routeBASE ++ p)⟩) ∧
    (∀ (m a k b : String) (params : List (String × PVal)) (v : PVal),
      params ≠ [] → braceFree a.data = true → braceFree k.data = true →
      braceFree b.data = true → getKey params k = some v →
      (mkRoute m (a ++ "\x7b" ++ k ++ "\x7d" ++ b) params).url
        = .ok (routeBASE ++ a ++ encodeParam v ++ b)) ∧
    (∀ s : String, encodeParam (.pstr s) = pyQuote s) ∧
    (∀ n : Int, encodeParam (.pint n) = toString n) ∧
    (∀ s : String, s.data.all (fun c => quoteSafe c.toNat) = true →
      pyQuote s = s) := by
  refine ⟨fun m p => rfl, ?_, fun s => rfl, fun n => rfl, ?_⟩
  · intro m a k b params v hne hba hbk hbb hget
    have hemp : params.isEmpty = false := by
      cases params with
      | nil => exact absurd rfl hne
      | cons q qs => rfl
    rw [show (mkRoute m (a ++ "\x7b" ++ k ++ "\x7d" ++ b) params).url
          = pyFormat (routeBASE ++ (a ++ "\x7b" ++ k ++ "\x7d" ++ b))
              (params.map (fun p => (p.1, encodeParam p.2))) by
        simp [mkRoute, hemp]]
    rw [pyFormat,
      show (routeBASE ++ (a ++ "\x7b" ++ k ++ "\x7d" ++ b)).data
          = (routeBASE.data ++ a.data) ++ ('{' :: (k.data ++ '}' :: b.data)) by
        simp [String.data_append]]
    rw [fmtScan_copy _ _ _ (by
      rw [show braceFree (routeBASE.data ++ a.data)
            = (braceFree routeBASE.data && braceFree a.data) by
          simp [braceFree, List.all_append]]
      rw [hba]
      decide)]
    have hopen : fmtScan (params.map (fun p => (p.1, encodeParam p.2))) none
        ('{' :: (k.data ++ '}' :: b.data))
        = fmtScan (params.map (fun p => (p.1, encodeParam p.2))) (some [])
            (k.data ++ '}' :: b.data) := by
      cases hk : k.data with
      | nil => rfl
      | cons c ks =>
        have h1 : c ≠ '{' := by
          rw [hk] at hbk
          simp only [braceFree, List.all_cons, Bool.and_eq_true, bne_iff_ne,
            ne_eq] at hbk
          exact hbk.1.1
        rw [List.cons_append]
        exact fmtScan_open_step _ c _ h1
    rw [hopen, fmtScan_name _ _ _ _ hbk]
    rw [show String.mk ([] ++ k.data) = k by cases k; rfl]
    rw [getKey_map_encode, hget]
    have hb2 : fmtScan (params.map (fun p => (p.1, encodeParam p.2))) none b.data
        = .ok b.data := by
      have hcp := fmtScan_copy (params.map (fun p => (p.1, encodeParam p.2)))
        b.data [] hbb
      simpa [show fmtScan (params.map (fun p => (p.1, encodeParam p.2))) none []
          = .ok [] from rfl, Except.map] using hcp
    simp only [Option.map_some', hb2, Except.map]
    refine congrArg Except.ok ?_
    apply String.ext
    simp [String.data_append]
  · intro s h
    have key : ∀ l : List Char, l.all (fun c => quoteSafe c.toNat) = true →
        ((l.map (fun c => (utf8Bytes c).map quoteByte)).flatten).flatten = l := by
      intro l
      induction l with
      | nil => intro _; rfl
      | cons c cs ih =>
        intro hl
        simp only [List.all_cons, Bool.and_eq_true] at hl
        obtain ⟨hc, hcs⟩ := hl
        have hlt : c.toNat < 128 := by
          simp only [quoteSafe, Bool.or_eq_true, Bool.and_eq_true,
            decide_eq_true_eq, beq_iff_eq] at hc
          omega
        have hbytes : utf8Bytes c = [c.toNat] := by
          simp [utf8Bytes, hlt]
        simp [hbytes, quoteByte, hc, ih hcs, Char.ofNat_toNat]
    have hdata := key s.data h
    rw [pyQuote, hdata]


/-- Witness for C9 at a concrete route: a string parameter with a space
and an ampersand is percent-encoded into the resolved URL. -/
theorem route_url_resolution_witness :
    (mkRoute "GET" ("friend/" ++ "\x7b" ++ "id" ++ "\x7d" ++ "/all")
        [("id", PVal.pstr "a b&c")]).url
      = .ok "https://api.getslowly.com/friend/a%20b%26c/all" := by
  rw [route_url_resolution.2.1 "GET" "friend/" "id" "/all"
    [("id", PVal.pstr "a b&c")] (PVal.pstr "a b&c") (by decide) (by decide)
    (by decide) (by decide) rfl]
  rfl

end Slowly
